import Mathlib

/-!
# xk6-output-timestream: the batching engine of `output.go`

A shallow embedding of `src/output.go`:

* `createRecords` (lines 152-193), the mapping from k6 samples to Timestream records;
* `metricSamplesHandler` (lines 119-147), the consumer loop that appends the records of
  each received container to a pending buffer and slices chunks off it;
* `writeRecords` (lines 238-253) and `logTimestreamError` (lines 255-270), the write of
  one chunk and the reporting of its failure.

Conventions of the embedding.

* A Go slice of records is a `List`; `s[:n]` is `List.take n`, `s[n:]` is `List.drop n`
  and `append(s, t...)` is `s ++ t`.  The chunk `s[:n]` shares its backing array with the
  buffer `s[n:]`, but later appends only write behind the end of the buffer, so the
  contents of a dispatched chunk never change and value semantics is exact.
* A Go `map[string]string` that is ranged over is the list of its entries in the order
  the `range` loop visits them (that order is unspecified in Go; every statement below
  holds for every order).
* The channel `metricSampleContainerQueue` is the list of the sample batches received
  from it before it is closed, in arrival order.
* The calls of `writeRecordsAsync` are recorded as the list of the chunks passed to it,
  in call order.  What the spawned goroutines do concurrently is not modelled; the body
  of one goroutine, run alone, is `writeTask`.
* A Go string is a `String`, so byte sequences that are not valid UTF-8 are outside the
  model; `len(s) == 0` is `s.utf8ByteSize == 0`.
* `createRecords` takes the rendering of the measured value as a parameter `fmtValue`,
  so that the statements on the batching hold for every rendering.  The rendering of the
  source, `fmt.Sprintf("%.6f", v)` on a `float64`, is `sprintfF6` on `Float64`.
-/

namespace Timestream

/-! ## Data model -/

/-- The `types.Dimension` of the AWS SDK: a name and a value. -/
structure Dimension where
  Name : String
  Value : String
  deriving DecidableEq, Repr

/-- The fields of `types.Record` that `createRecords` fills in. -/
structure Record where
  Dimensions : List Dimension
  MeasureName : String
  MeasureValue : String
  MeasureValueType : String
  Time : String
  TimeUnit : String
  deriving DecidableEq, Repr

/-- A `metrics.Sample` of k6, over a type `V` of measured values (`float64` in the
source).  `Tags` is `sample.Tags.Map()` and `Metadata` is `sample.Metadata`, each as the
list of its entries in iteration order; `Time` is `sample.GetTime().UnixNano()`. -/
structure Sample (V : Type) where
  MetricName : String
  Tags : List (String × String)
  Metadata : List (String × String)
  Value : V
  Time : Int

/-! ## `strings.TrimSpace` -/

/-- The predicate `unicode.IsSpace` of Go: the Latin-1 spaces
`'\t', '\n', '\v', '\f', '\r', ' ', U+0085, U+00A0` and the characters of the Unicode
property White_Space above Latin-1. -/
def isSpace (c : Char) : Bool :=
  let n := c.toNat
  n = 0x09 || n = 0x0A || n = 0x0B || n = 0x0C || n = 0x0D || n = 0x20 ||
  n = 0x85 || n = 0xA0 || n = 0x1680 || (0x2000 ≤ n && n ≤ 0x200A) ||
  n = 0x2028 || n = 0x2029 || n = 0x202F || n = 0x205F || n = 0x3000

/-- The function `strings.TrimSpace`: the string without its leading and trailing
white space (`TrimLeftFunc` followed by `TrimRightFunc`, both with `unicode.IsSpace`). -/
def TrimSpace (s : String) : String :=
  String.mk ((s.data.dropWhile isSpace).reverse.dropWhile isSpace).reverse

/-- The test `len(strings.TrimSpace(tagValue)) == 0` of lines 159 and 170; `len` is the
length in bytes. -/
def blankValue (tagValue : String) : Bool :=
  (TrimSpace tagValue).utf8ByteSize == 0

/-! ## `createRecords` -/

/-- One of the two inner loops of `createRecords` (lines 158-167 and 169-178): ranging
over the entries of a map, skip the entries whose value is blank and append a dimension
for every other entry. -/
def appendDimensions (dimensions : List Dimension) (entries : List (String × String)) :
    List Dimension :=
  entries.foldl
    (fun dims kv => if blankValue kv.2 then dims else dims ++ [{ Name := kv.1, Value := kv.2 }])
    dimensions

/-- The body of the outer loop of `createRecords` for one sample (lines 156-189): the
record appended for it. -/
def createRecord {V : Type} (fmtValue : V → String) (sample : Sample V) : Record :=
  let dimensions : List Dimension := []
  let dimensions := appendDimensions dimensions sample.Tags
  let dimensions := appendDimensions dimensions sample.Metadata
  { Dimensions := dimensions
    MeasureName := sample.MetricName
    MeasureValue := fmtValue sample.Value
    MeasureValueType := "DOUBLE"
    Time := toString sample.Time
    TimeUnit := "NANOSECONDS" }

/-- The function `Output.createRecords` (lines 152-193): one record per sample, in the
order of the samples. -/
def createRecords {V : Type} (fmtValue : V → String) (samples : List (Sample V)) :
    List Record :=
  samples.foldl (fun records sample => records ++ [createRecord fmtValue sample]) []

/-! ## `metricSamplesHandler` -/

/-- The local constant `TimestreamMaxBatchSize` of line 121. -/
def TimestreamMaxBatchSize : Nat := 100

/-- The state of `metricSamplesHandler`: the pending buffer
`timestreamRecordsToSave` and the chunks passed to `writeRecordsAsync` so far, in call
order. -/
structure HandlerState where
  timestreamRecordsToSave : List Record
  dispatched : List (List Record)
  deriving DecidableEq, Repr

/-- The body of the `for ... range` loop (lines 131-137) for one received container:
append its records, then, if the buffer is longer than `TimestreamMaxBatchSize`,
dispatch its first `TimestreamMaxBatchSize` records and keep the rest. -/
def handleContainer {V : Type} (fmtValue : V → String) (st : HandlerState)
    (samples : List (Sample V)) : HandlerState :=
  let timestreamRecordsForContainer := createRecords fmtValue samples
  let timestreamRecordsToSave := st.timestreamRecordsToSave ++ timestreamRecordsForContainer
  if timestreamRecordsToSave.length > TimestreamMaxBatchSize then
    { timestreamRecordsToSave := timestreamRecordsToSave.drop TimestreamMaxBatchSize
      dispatched := st.dispatched ++ [timestreamRecordsToSave.take TimestreamMaxBatchSize] }
  else
    { timestreamRecordsToSave := timestreamRecordsToSave
      dispatched := st.dispatched }

/-- The whole `for ... range` loop (lines 130-138) over the batches received before the
queue is closed, from the empty buffer. -/
def drain {V : Type} (fmtValue : V → String) (queue : List (List (Sample V))) :
    HandlerState :=
  queue.foldl (handleContainer fmtValue) { timestreamRecordsToSave := [], dispatched := [] }

/-- The chunks dispatched while the queue is drained (line 135), in dispatch order. -/
def drainChunks {V : Type} (fmtValue : V → String) (queue : List (List (Sample V))) :
    List (List Record) :=
  (drain fmtValue queue).dispatched

/-- The chunk dispatched after the queue is closed (lines 140-142), if any. -/
def finalChunk {V : Type} (fmtValue : V → String) (queue : List (List (Sample V))) :
    Option (List Record) :=
  let st := drain fmtValue queue
  if st.timestreamRecordsToSave.length > 0 then some st.timestreamRecordsToSave else none

/-- The function `Output.metricSamplesHandler` (lines 119-147): all chunks it passes to
`writeRecordsAsync`, the drain-time chunks followed by the final chunk. -/
def metricSamplesHandler {V : Type} (fmtValue : V → String)
    (queue : List (List (Sample V))) : List (List Record) :=
  drainChunks fmtValue queue ++ (finalChunk fmtValue queue).toList

/-- The number of records the batches of the queue map to, all together. -/
def totalRecords {V : Type} (fmtValue : V → String) (queue : List (List (Sample V))) :
    Nat :=
  ((queue.map (createRecords fmtValue)).flatten).length

/-! ## Errors, the write client and the log -/

/-- The fields of `types.RejectedRecord` the source reads: `Reason` is a `*string`
(`none` is the nil pointer) and `RecordIndex` an `int32`. -/
structure RejectedRecord where
  Reason : Option String
  RecordIndex : Int
  deriving DecidableEq, Repr

/-- The type `types.RejectedRecordsException` of the AWS SDK. -/
structure RejectedRecordsException where
  Message : Option String
  RejectedRecords : List RejectedRecord
  deriving DecidableEq, Repr

/-- Go error values, as far as `errors.As` tells them apart: a
`*types.RejectedRecordsException`, an error that wraps another one (it has an
`Unwrap() error` method, as the errors of `fmt.Errorf` with `%w` and the operation errors
of the SDK have), and any other error, which wraps nothing. -/
inductive GoError where
  | rejected (exception : RejectedRecordsException)
  | wrapping (text : String) (inner : GoError)
  | plain (text : String)
  deriving DecidableEq, Repr

/-- The call `errors.As(err, &rejected)` with `rejected` of type
`*types.RejectedRecordsException` (line 261): the first error of that type in the chain
of `err`, found by unwrapping. -/
def errorsAs : GoError → Option RejectedRecordsException
  | .rejected exception => some exception
  | .wrapping _ inner => errorsAs inner
  | .plain _ => none

/-- The helper `aws.ToString`: the string a `*string` points to, `""` for nil. -/
def awsToString (p : Option String) : String :=
  match p with
  | some v => v
  | none => ""

/-- The fields of `timestreamwrite.WriteRecordsInput` that `writeRecords` sets. -/
structure WriteRecordsInput where
  DatabaseName : String
  TableName : String
  Records : List Record
  deriving DecidableEq, Repr

/-- The type `types.RecordsIngested`; `Total` is an `int32`. -/
structure RecordsIngested where
  Total : Int
  deriving DecidableEq, Repr

/-- The type `timestreamwrite.WriteRecordsOutput`; `RecordsIngested` is a pointer. -/
structure WriteRecordsOutput where
  RecordsIngested : Option RecordsIngested
  deriving DecidableEq, Repr

/-- The interface `WriteClient` (lines 36-42): `WriteRecords` returns a response or an
error. -/
abbrev WriteClient := WriteRecordsInput → Except GoError WriteRecordsOutput

/-- The fields of `Config` the write path reads. -/
structure Config where
  DatabaseName : String
  TableName : String
  deriving DecidableEq, Repr

/-- The function `Output.writeRecords` (lines 238-253).  The result is the pair
`(count, err)` it returns; `none` is the nil-pointer panic of line 252 when the response
carries no `RecordsIngested`. -/
def writeRecords (client : WriteClient) (config : Config) (records : List Record) :
    Option (Int × Option GoError) :=
  let writeRecordsInput : WriteRecordsInput :=
    { DatabaseName := config.DatabaseName
      TableName := config.TableName
      Records := records }
  match client writeRecordsInput with
  | .error err =>
    some (0, some (GoError.wrapping "unable to write records to timestream: %w" err))
  | .ok response =>
    match response.RecordsIngested with
    | some ingested => some (ingested.Total, none)
    | none => none

/-- What the goroutines write to the logger, without the fields that depend on the
clock: a `Debug` message, an `Error` message with the error attached by `WithError`,
and an `Errorf` call with its format and its two arguments. -/
inductive LogEntry where
  | debug (msg : String)
  | error (msg : String) (err : GoError)
  | errorf (format : String) (reason : String) (recordIndex : Int)
  deriving DecidableEq, Repr

/-- The function `logTimestreamError` (lines 255-270): the entries it logs, in order. -/
def logTimestreamError (err : GoError) : List LogEntry :=
  [LogEntry.error "failed to write" err] ++
    (match errorsAs err with
     | some rejected =>
       rejected.RejectedRecords.map fun rr =>
         LogEntry.errorf "reject reason: %q, record index: %d"
           (awsToString rr.Reason) rr.RecordIndex
     | none => [])

/-- The body of the goroutine started by `writeRecordsAsync` (lines 210-235) for one
chunk: the entries it logs before it returns; `none` when `writeRecords` panics.  The
goroutine returns no value. -/
def writeTask (client : WriteClient) (config : Config) (recordsToSave : List Record) :
    Option (List LogEntry) :=
  match writeRecords client config recordsToSave with
  | none => none
  | some (_, some err) => some ([LogEntry.debug "starting write"] ++ logTimestreamError err)
  | some (_, none) => some [LogEntry.debug "starting write", LogEntry.debug "wrote metrics"]

/-- The calls of `client.WriteRecords` a run makes: one per dispatched chunk (line 247,
reached once from each goroutine), listed in dispatch order. -/
def writeCalls {V : Type} (config : Config) (fmtValue : V → String)
    (queue : List (List (Sample V))) : List WriteRecordsInput :=
  (metricSamplesHandler fmtValue queue).map fun chunk =>
    { DatabaseName := config.DatabaseName
      TableName := config.TableName
      Records := chunk }

/-- The value `Output.Stop` returns (line 105) once it has received from `doneWriting`:
always the nil error. -/
def Stop : Option GoError := none

/-! ## Vocabulary of the statements -/

/-- A string that is empty or consists only of white space. -/
def whitespaceOnly (s : String) : Prop := ∀ c ∈ s.data, isSpace c = true

instance (s : String) : Decidable (whitespaceOnly s) := by
  unfold whitespaceOnly
  infer_instance

/-- The record has a dimension named `key`. -/
def hasDimensionNamed (r : Record) (key : String) : Prop :=
  ∃ d ∈ r.Dimensions, d.Name = key

instance (r : Record) (key : String) : Decidable (hasDimensionNamed r key) := by
  unfold hasDimensionNamed
  infer_instance

/-- A sample with an integral value, for the concrete runs below. -/
def exampleSample : Sample Nat :=
  { MetricName := "http_reqs", Tags := [], Metadata := [], Value := 3, Time := 0 }

/-- The rendering `%.6f` on integral values: the digits followed by six zeros. -/
def exampleFmt (n : Nat) : String := toString n ++ ".000000"

/-- A sample whose key `k` is a tag with a blank value and a metadata entry with a
value. -/
def blankTagSample : Sample Nat :=
  { MetricName := "m", Tags := [("k", " ")], Metadata := [("k", "v")], Value := 3, Time := 0 }

/-- The rejection of scenario C: the records at indices 2 and 5 of the chunk are
rejected. -/
def exampleRejection : RejectedRecordsException :=
  { Message := some "One or more records have been rejected."
    RejectedRecords :=
      [{ Reason := some "The record timestamp is outside the time range of the memory store.",
         RecordIndex := 2 },
       { Reason := some "A record already exists with the same time and dimensions.",
         RecordIndex := 5 }] }

/-- A store client whose write fails with `exampleRejection`, wrapped in an operation
error as the SDK does. -/
def rejectingClient : WriteClient := fun _ =>
  .error (GoError.wrapping "operation error Timestream Write: WriteRecords"
    (GoError.rejected exampleRejection))

/-- The configuration of the concrete runs. -/
def exampleConfig : Config := { DatabaseName := "k6", TableName := "results" }

/-! ## `float64` and the verb `%.6f` -/

/-- A `float64`: a finite value `(-1)^negative * mantissa * 2^exponent` (the IEEE-754
doubles are those with `mantissa < 2^53` and `-1074 ≤ exponent ≤ 971`; the zeros have
mantissa 0), an infinity, or a NaN. -/
inductive Float64 where
  | finite (negative : Bool) (mantissa : Nat) (exponent : Int)
  | inf (negative : Bool)
  | nan
  deriving DecidableEq, Repr

/-- The value is neither an infinity nor a NaN. -/
def Float64.isFinite : Float64 → Bool
  | .finite _ _ _ => true
  | .inf _ => false
  | .nan => false

/-- The magnitude `mantissa * 2^exponent` in millionths, rounded to the nearest integer,
a tie to the even one: the rounding `strconv` applies to the exact decimal expansion
when it formats with the verb `f` and precision 6. -/
def roundedMicros (mantissa : Nat) (exponent : Int) : Nat :=
  match exponent with
  | Int.ofNat e => mantissa * 2 ^ e * 10 ^ 6
  | Int.negSucc e =>
    let den := 2 ^ (e + 1)
    let num := mantissa * 10 ^ 6
    let q := num / den
    let r := num % den
    if 2 * r > den ∨ (2 * r = den ∧ q % 2 = 1) then q + 1 else q

/-- The text of a finite value for the verb `f` with precision 6: a minus sign when the
sign bit is set, the digits of the integer part (`0` when it is zero), a point, and the
six digits of the fraction. -/
def formatFixed6 (negative : Bool) (micros : Nat) : String :=
  String.mk ((if negative then ['-'] else []) ++ Nat.toDigits 10 (micros / 10 ^ 6)
    ++ '.' :: (List.range 6).map fun i => Nat.digitChar (micros / 10 ^ (5 - i) % 10))

/-- The call `fmt.Sprintf("%.6f", v)` of line 183, after the documentation of the
packages `fmt` and `strconv`: a finite value is written in decimal with six digits after
the point; the infinities are written `+Inf` and `-Inf` and a NaN is written `NaN`. -/
def sprintfF6 : Float64 → String
  | .finite negative mantissa exponent => formatFixed6 negative (roundedMicros mantissa exponent)
  | .inf false => "+Inf"
  | .inf true => "-Inf"
  | .nan => "NaN"

/-- A decimal rendering with exactly six digits after the decimal point: an optional
minus sign, at least one digit, a point, and six digits. -/
def sixDecimals (s : String) : Prop :=
  ∃ sign digits fraction : List Char,
    s.data = sign ++ digits ++ '.' :: fraction
      ∧ (sign = [] ∨ sign = ['-'])
      ∧ digits ≠ [] ∧ (∀ c ∈ digits, c.isDigit = true)
      ∧ fraction.length = 6 ∧ (∀ c ∈ fraction, c.isDigit = true)

/-- A sample with the value 3. -/
def threeSample : Sample Float64 :=
  { MetricName := "http_reqs", Tags := [], Metadata := [],
    Value := Float64.finite false 6755399441055744 (-51), Time := 0 }

/-- A sample with the value positive infinity. -/
def infSample : Sample Float64 :=
  { MetricName := "http_reqs", Tags := [], Metadata := [],
    Value := Float64.inf false, Time := 0 }

/-! ## Lemmas on `createRecords` -/

theorem foldl_snoc_eq_map {α β : Type} (g : α → β) (l : List α) (acc : List β) :
    l.foldl (fun records a => records ++ [g a]) acc = acc ++ l.map g := by
  induction l generalizing acc with
  | nil => simp
  | cons a l ih => simp [ih]

theorem createRecords_eq_map {V : Type} (fmtValue : V → String) (samples : List (Sample V)) :
    createRecords fmtValue samples = samples.map (createRecord fmtValue) := by
  unfold createRecords
  rw [foldl_snoc_eq_map]
  simp

theorem createRecords_length {V : Type} (fmtValue : V → String) (samples : List (Sample V)) :
    (createRecords fmtValue samples).length = samples.length := by
  simp [createRecords_eq_map]

/-! ## Lemmas on the loop of `metricSamplesHandler` -/

section Loop

variable {V : Type} (fmtValue : V → String)

/-- The loop body with its local definitions unfolded. -/
theorem handleContainer_eq (st : HandlerState) (samples : List (Sample V)) :
    handleContainer fmtValue st samples =
      if (st.timestreamRecordsToSave ++ createRecords fmtValue samples).length
          > TimestreamMaxBatchSize then
        { timestreamRecordsToSave :=
            (st.timestreamRecordsToSave ++ createRecords fmtValue samples).drop
              TimestreamMaxBatchSize
          dispatched := st.dispatched ++
            [(st.timestreamRecordsToSave ++ createRecords fmtValue samples).take
              TimestreamMaxBatchSize] }
      else
        { timestreamRecordsToSave := st.timestreamRecordsToSave ++ createRecords fmtValue samples
          dispatched := st.dispatched } := rfl

/-- One pass of the loop body neither loses nor repeats a record: the dispatched chunks
followed by the buffer grow by exactly the records of the container. -/
theorem handleContainer_contents (st : HandlerState) (samples : List (Sample V)) :
    (handleContainer fmtValue st samples).dispatched.flatten
        ++ (handleContainer fmtValue st samples).timestreamRecordsToSave
      = st.dispatched.flatten ++ st.timestreamRecordsToSave
        ++ createRecords fmtValue samples := by
  rw [handleContainer_eq]
  split
  · simp [List.take_append_drop]
  · simp

theorem foldl_contents (queue : List (List (Sample V))) (st : HandlerState) :
    (queue.foldl (handleContainer fmtValue) st).dispatched.flatten
        ++ (queue.foldl (handleContainer fmtValue) st).timestreamRecordsToSave
      = st.dispatched.flatten ++ st.timestreamRecordsToSave
        ++ (queue.map (createRecords fmtValue)).flatten := by
  induction queue generalizing st with
  | nil => simp
  | cons b queue ih =>
    simp only [List.foldl_cons, List.map_cons, List.flatten_cons]
    rw [ih, handleContainer_contents]
    simp [List.append_assoc]

/-- A chunk dispatched by one pass of the loop body has `TimestreamMaxBatchSize`
records. -/
theorem handleContainer_chunk (st : HandlerState) (samples : List (Sample V))
    (c : List Record) (hc : c ∈ (handleContainer fmtValue st samples).dispatched) :
    c ∈ st.dispatched ∨ c.length = TimestreamMaxBatchSize := by
  rw [handleContainer_eq] at hc
  split at hc
  · rename_i h
    simp only [List.mem_append, List.mem_singleton] at hc
    rcases hc with hc | hc
    · exact Or.inl hc
    · right
      rw [hc, List.length_take]
      omega
  · exact Or.inl hc

theorem foldl_chunk (queue : List (List (Sample V))) (st : HandlerState)
    (c : List Record) (hc : c ∈ (queue.foldl (handleContainer fmtValue) st).dispatched) :
    c ∈ st.dispatched ∨ c.length = TimestreamMaxBatchSize := by
  induction queue generalizing st with
  | nil => exact Or.inl hc
  | cons b queue ih =>
    rcases ih _ hc with h | h
    · exact handleContainer_chunk fmtValue st b c h
    · exact Or.inr h

/-- Every chunk dispatched while draining has exactly `TimestreamMaxBatchSize`
records. -/
theorem drainChunks_length (queue : List (List (Sample V))) (c : List Record)
    (hc : c ∈ drainChunks fmtValue queue) : c.length = TimestreamMaxBatchSize := by
  rcases foldl_chunk fmtValue queue _ c hc with h | h
  · simp at h
  · exact h

/-- One pass of the loop body dispatches at most one chunk. -/
theorem handleContainer_dispatched_length (st : HandlerState) (samples : List (Sample V)) :
    (handleContainer fmtValue st samples).dispatched.length ≤ st.dispatched.length + 1 := by
  rw [handleContainer_eq]
  split <;> simp

/-- The buffer is empty after a pass of the loop body only if it was empty before and
the container had no sample. -/
theorem handleContainer_buffer_pos (st : HandlerState) (samples : List (Sample V)) :
    0 < (handleContainer fmtValue st samples).timestreamRecordsToSave.length ↔
      0 < st.timestreamRecordsToSave.length + (createRecords fmtValue samples).length := by
  rw [handleContainer_eq]
  split
  · rename_i h
    simp only [List.length_drop, List.length_append] at h ⊢
    omega
  · simp

theorem foldl_buffer_pos (queue : List (List (Sample V))) (st : HandlerState) :
    0 < (queue.foldl (handleContainer fmtValue) st).timestreamRecordsToSave.length ↔
      0 < st.timestreamRecordsToSave.length
        + ((queue.map (createRecords fmtValue)).flatten).length := by
  induction queue generalizing st with
  | nil => simp
  | cons b queue ih =>
    simp only [List.foldl_cons, List.map_cons, List.flatten_cons, List.length_append]
    rw [ih, ← Nat.add_assoc]
    have := handleContainer_buffer_pos fmtValue st b
    omega

/-- The sum of the lengths of chunks that all have `TimestreamMaxBatchSize` records. -/
theorem flatten_length_of_chunks (chunks : List (List Record))
    (h : ∀ c ∈ chunks, c.length = TimestreamMaxBatchSize) :
    chunks.flatten.length = TimestreamMaxBatchSize * chunks.length := by
  induction chunks with
  | nil => simp
  | cons c chunks ih =>
    have hc := h c (List.mem_cons_self _ _)
    have ht := ih (fun d hd => h d (List.mem_cons_of_mem _ hd))
    simp only [List.flatten_cons, List.length_append, List.length_cons, hc, ht]
    rw [Nat.mul_add]
    omega

/-- Accounting of the drain loop: the records in dispatched chunks plus the records
still pending are the records produced. -/
theorem drain_accounting (queue : List (List (Sample V))) :
    TimestreamMaxBatchSize * (drainChunks fmtValue queue).length
        + (drain fmtValue queue).timestreamRecordsToSave.length
      = totalRecords fmtValue queue := by
  have h := congrArg List.length (foldl_contents fmtValue queue
    { timestreamRecordsToSave := [], dispatched := [] })
  rw [← flatten_length_of_chunks _ (drainChunks_length fmtValue queue)]
  simpa [drainChunks, drain, totalRecords] using h

/-- With batches of at most `TimestreamMaxBatchSize` records, a buffer that holds at
most that many records before a pass of the loop body holds at most that many after. -/
theorem handleContainer_buffer_le (st : HandlerState) (samples : List (Sample V))
    (hst : st.timestreamRecordsToSave.length ≤ TimestreamMaxBatchSize)
    (hb : (createRecords fmtValue samples).length ≤ TimestreamMaxBatchSize) :
    (handleContainer fmtValue st samples).timestreamRecordsToSave.length
      ≤ TimestreamMaxBatchSize := by
  rw [handleContainer_eq]
  split
  · simp only [List.length_drop, List.length_append]
    omega
  · rename_i h
    simp only [List.length_append] at h ⊢
    omega

theorem foldl_buffer_le (queue : List (List (Sample V))) (st : HandlerState)
    (hst : st.timestreamRecordsToSave.length ≤ TimestreamMaxBatchSize)
    (hq : ∀ b ∈ queue, (createRecords fmtValue b).length ≤ TimestreamMaxBatchSize) :
    (queue.foldl (handleContainer fmtValue) st).timestreamRecordsToSave.length
      ≤ TimestreamMaxBatchSize := by
  induction queue generalizing st with
  | nil => exact hst
  | cons b queue ih =>
    apply ih
    · exact handleContainer_buffer_le fmtValue st b hst (hq b (List.mem_cons_self _ _))
    · exact fun d hd => hq d (List.mem_cons_of_mem _ hd)

theorem drain_buffer_le (queue : List (List (Sample V)))
    (hq : ∀ b ∈ queue, (createRecords fmtValue b).length ≤ TimestreamMaxBatchSize) :
    (drain fmtValue queue).timestreamRecordsToSave.length ≤ TimestreamMaxBatchSize :=
  foldl_buffer_le fmtValue queue _ (by simp) hq

/-- The chunks of `metricSamplesHandler`: a drain-time chunk or the final chunk. -/
theorem mem_metricSamplesHandler (queue : List (List (Sample V))) (c : List Record) :
    c ∈ metricSamplesHandler fmtValue queue ↔
      c ∈ drainChunks fmtValue queue ∨ finalChunk fmtValue queue = some c := by
  simp [metricSamplesHandler, Option.mem_toList, eq_comm]

end Loop

/-! ## The run on a single batch -/

/-- The run on a queue of one batch of `n` samples, in terms of lengths: the sizes of
the drain-time chunks and the size of the buffer when the queue closes. -/
theorem drain_single {V : Type} (fmtValue : V → String) (samples : List (Sample V)) :
    (drain fmtValue [samples]).dispatched.map List.length
        = (if samples.length > TimestreamMaxBatchSize then [TimestreamMaxBatchSize] else [])
      ∧ (drain fmtValue [samples]).timestreamRecordsToSave.length
        = (if samples.length > TimestreamMaxBatchSize
            then samples.length - TimestreamMaxBatchSize else samples.length) := by
  simp only [drain, List.foldl_cons, List.foldl_nil, handleContainer_eq, List.nil_append,
    createRecords_length]
  split
  · rename_i h
    simp only [List.map_append, List.map_nil, List.map_cons, List.length_take,
      List.length_drop, createRecords_length, List.nil_append, and_true]
    congr 1
    omega
  · simp [createRecords_length]

/-! ## The chunks of `metricSamplesHandler` -/

/-- C1: the chunks handed to `writeRecordsAsync`, concatenated in dispatch order (the
drain-time chunks, then the final chunk), are the records of the batches concatenated
in arrival order: nothing is dropped, nothing is dispatched twice, and the order of the
buffer is kept. -/
theorem dispatched_chunks_concat {V : Type} (fmtValue : V → String)
    (queue : List (List (Sample V))) :
    (metricSamplesHandler fmtValue queue).flatten
      = (queue.map (createRecords fmtValue)).flatten := by
  have h := foldl_contents fmtValue queue { timestreamRecordsToSave := [], dispatched := [] }
  simp only [List.flatten_nil, List.nil_append] at h
  rw [← h]
  unfold metricSamplesHandler finalChunk drainChunks drain
  simp only [List.flatten_append]
  congr 1
  split
  · simp
  · rename_i hlen
    have : (List.foldl (handleContainer fmtValue)
        { timestreamRecordsToSave := [], dispatched := [] } queue).timestreamRecordsToSave
          = [] := by
      apply List.eq_nil_of_length_eq_zero
      omega
    simp [this]

/-- C8: no chunk handed to `writeRecordsAsync` is empty, and when no batch is received
before the queue is closed no chunk is dispatched and no write call is made. -/
theorem no_empty_chunk {V : Type} (fmtValue : V → String) (config : Config)
    (queue : List (List (Sample V))) :
    (∀ c ∈ metricSamplesHandler fmtValue queue, c ≠ [])
      ∧ metricSamplesHandler fmtValue ([] : List (List (Sample V))) = []
      ∧ writeCalls config fmtValue ([] : List (List (Sample V))) = [] := by
  refine ⟨?_, ?_, ?_⟩
  · intro c hc
    rcases (mem_metricSamplesHandler fmtValue queue c).1 hc with h | h
    · have := drainChunks_length fmtValue queue c h
      intro hnil
      simp [hnil, TimestreamMaxBatchSize] at this
    · unfold finalChunk at h
      simp only at h
      split at h
      · rename_i hpos
        intro hnil
        simp only [Option.some.injEq] at h
        rw [h, hnil] at hpos
        simp at hpos
      · simp at h
  · simp [metricSamplesHandler, drainChunks, finalChunk, drain]
  · simp [writeCalls, metricSamplesHandler, drainChunks, finalChunk, drain]

/-- C10: when every batch maps to at most 100 records, the pending buffer holds at most
100 records after each batch has been handled, and every dispatched chunk, the final
one included, holds between 1 and 100 records. -/
theorem bounded_batches_bounded_chunks {V : Type} (fmtValue : V → String)
    (queue : List (List (Sample V)))
    (hq : ∀ b ∈ queue, (createRecords fmtValue b).length ≤ 100) :
    (∀ n, (drain fmtValue (queue.take n)).timestreamRecordsToSave.length ≤ 100)
      ∧ ∀ c ∈ metricSamplesHandler fmtValue queue, 1 ≤ c.length ∧ c.length ≤ 100 := by
  refine ⟨?_, ?_⟩
  · intro n
    exact drain_buffer_le fmtValue (queue.take n)
      (fun b hb => hq b (List.mem_of_mem_take hb))
  · intro c hc
    rcases (mem_metricSamplesHandler fmtValue queue c).1 hc with h | h
    · have := drainChunks_length fmtValue queue c h
      simp only [TimestreamMaxBatchSize] at this
      omega
    · have hle := drain_buffer_le fmtValue queue hq
      unfold finalChunk at h
      simp only at h
      split at h
      · rename_i hpos
        simp only [Option.some.injEq] at h
        rw [h] at hpos hle
        simp only [TimestreamMaxBatchSize] at hle
        omega
      · simp at h

/-- Witness of C10: three batches of 60 samples. -/
theorem bounded_batches_bounded_chunks_witness :
    (∀ b ∈ List.replicate 3 (List.replicate 60 exampleSample),
        (createRecords exampleFmt b).length ≤ 100)
      ∧ ((∀ n, (drain exampleFmt ((List.replicate 3 (List.replicate 60 exampleSample)).take
            n)).timestreamRecordsToSave.length ≤ 100)
        ∧ ∀ c ∈ metricSamplesHandler exampleFmt
            (List.replicate 3 (List.replicate 60 exampleSample)),
          1 ≤ c.length ∧ c.length ≤ 100) :=
  have h : ∀ b ∈ List.replicate 3 (List.replicate 60 exampleSample),
      (createRecords exampleFmt b).length ≤ 100 := by
    intro b hb
    rw [List.eq_of_mem_replicate hb, createRecords_length]
    simp
  ⟨h, bounded_batches_bounded_chunks exampleFmt _ h⟩

/-- The sizes of the chunks of a run on one batch: the drain-time chunks and the final
chunk. -/
theorem single_batch_sizes {V : Type} (fmtValue : V → String) (samples : List (Sample V)) :
    (drainChunks fmtValue [samples]).map List.length
        = (if samples.length > TimestreamMaxBatchSize then [TimestreamMaxBatchSize] else [])
      ∧ (finalChunk fmtValue [samples]).map List.length
        = (if samples.length = 0 then none
            else some (if samples.length > TimestreamMaxBatchSize
              then samples.length - TimestreamMaxBatchSize else samples.length)) := by
  have h := drain_single fmtValue samples
  refine ⟨h.1, ?_⟩
  unfold finalChunk
  simp only [h.2]
  by_cases h0 : samples.length = 0
  · simp [h0, TimestreamMaxBatchSize]
  · by_cases hgt : samples.length > TimestreamMaxBatchSize
    · have : 0 < samples.length - TimestreamMaxBatchSize := by omega
      simp [h0, hgt, this, h.2]
    · have : 0 < samples.length := by omega
      simp [h0, hgt, this, h.2]

/-- C2, at one batch of 201 samples: the drain dispatches one chunk of 100 records and
the chunk dispatched after the queue closes holds 101 records, more than
`TimestreamMaxBatchSize`. -/
theorem final_chunk_exceeds_max :
    (drainChunks exampleFmt [List.replicate 201 exampleSample]).map List.length = [100]
      ∧ (finalChunk exampleFmt [List.replicate 201 exampleSample]).map List.length
        = some 101
      ∧ ¬ (∀ c ∈ metricSamplesHandler exampleFmt [List.replicate 201 exampleSample],
          c.length ≤ TimestreamMaxBatchSize) := by
  have h := single_batch_sizes exampleFmt (List.replicate 201 exampleSample)
  have hl := List.length_replicate 201 exampleSample
  generalize List.replicate 201 exampleSample = batch at h hl ⊢
  rw [hl] at h
  refine ⟨h.1, h.2, ?_⟩
  intro hall
  have hfin : (finalChunk exampleFmt [batch]).map List.length = some 101 := h.2
  cases hc : finalChunk exampleFmt [batch] with
  | none => simp [hc] at hfin
  | some c =>
    have hmem := (mem_metricSamplesHandler exampleFmt _ c).2 (Or.inr hc)
    have hle := hall c hmem
    simp only [hc, Option.map_some', Option.some.injEq] at hfin
    simp only [TimestreamMaxBatchSize] at hle
    omega

/-- C9, at one batch of 250 samples: handling that one append dispatches a single chunk
of 100 records; the other 150 records stay in the buffer and leave in one chunk after
the queue closes. -/
theorem large_batch_single_detachment :
    (drainChunks exampleFmt [List.replicate 250 exampleSample]).map List.length = [100]
      ∧ (drain exampleFmt [List.replicate 250 exampleSample]).timestreamRecordsToSave.length
        = 150
      ∧ (metricSamplesHandler exampleFmt [List.replicate 250 exampleSample]).map List.length
        = [100, 150] := by
  have h := single_batch_sizes exampleFmt (List.replicate 250 exampleSample)
  have hd := (drain_single exampleFmt (List.replicate 250 exampleSample)).2
  have hl := List.length_replicate 250 exampleSample
  generalize List.replicate 250 exampleSample = batch at h hd hl ⊢
  rw [hl] at h hd
  refine ⟨h.1, hd, ?_⟩
  unfold metricSamplesHandler
  rw [List.map_append, h.1]
  have hfin : (finalChunk exampleFmt [batch]).map List.length = some 150 := h.2
  cases hc : finalChunk exampleFmt [batch] with
  | none => simp [hc] at hfin
  | some c =>
    simp only [hc, Option.map_some', Option.some.injEq] at hfin
    simp [hfin, TimestreamMaxBatchSize]

/-- The records of a queue are as many as its samples. -/
theorem totalRecords_single {V : Type} (fmtValue : V → String) (samples : List (Sample V)) :
    totalRecords fmtValue [samples] = samples.length := by
  simp [totalRecords, createRecords_length]

/-- C3 fails at one batch of 100 samples: K = 100 and floor(K/T) = 1, but no chunk is
dispatched before the queue is closed, and finalization dispatches a chunk of 100 records
although K mod T = 0. -/
theorem full_buffer_waits_for_finalization :
    totalRecords exampleFmt [List.replicate 100 exampleSample] = 100
      ∧ (drainChunks exampleFmt [List.replicate 100 exampleSample]).length = 0
      ∧ (drainChunks exampleFmt [List.replicate 100 exampleSample]).length
        ≠ totalRecords exampleFmt [List.replicate 100 exampleSample] / TimestreamMaxBatchSize
      ∧ totalRecords exampleFmt [List.replicate 100 exampleSample] % TimestreamMaxBatchSize = 0
      ∧ (finalChunk exampleFmt [List.replicate 100 exampleSample]).map List.length
        = some 100 := by
  have h := single_batch_sizes exampleFmt (List.replicate 100 exampleSample)
  have ht := totalRecords_single exampleFmt (List.replicate 100 exampleSample)
  have hl := List.length_replicate 100 exampleSample
  generalize List.replicate 100 exampleSample = batch at h ht hl ⊢
  rw [hl] at h ht
  have hd : (drainChunks exampleFmt [batch]).length = 0 := by
    have := congrArg List.length h.1
    simpa [TimestreamMaxBatchSize] using this
  refine ⟨ht, hd, ?_, ?_, h.2⟩
  · rw [hd, ht]
    decide
  · rw [ht]
    decide

/-- C3 as amended: when the pending buffer holds at most T = 100 records as the queue
closes, a run over batches totalling K records dispatches nothing if K = 0 and
otherwise dispatches exactly floor((K - 1) / T) chunks of exactly T records before the
queue is closed and exactly one further chunk at finalization, of
K - T * floor((K - 1) / T) records: K mod T when that is nonzero, T when K is a positive
multiple of T. -/
theorem chunk_counts {V : Type} (fmtValue : V → String) (queue : List (List (Sample V)))
    (hfinal : (drain fmtValue queue).timestreamRecordsToSave.length
      ≤ TimestreamMaxBatchSize) :
    (drainChunks fmtValue queue).length
        = (totalRecords fmtValue queue - 1) / TimestreamMaxBatchSize
      ∧ (∀ c ∈ drainChunks fmtValue queue, c.length = TimestreamMaxBatchSize)
      ∧ (totalRecords fmtValue queue = 0 → metricSamplesHandler fmtValue queue = [])
      ∧ (0 < totalRecords fmtValue queue →
          ∃ c, finalChunk fmtValue queue = some c
            ∧ c.length = totalRecords fmtValue queue
                - TimestreamMaxBatchSize
                  * ((totalRecords fmtValue queue - 1) / TimestreamMaxBatchSize)
            ∧ c.length = (if totalRecords fmtValue queue % TimestreamMaxBatchSize = 0
                then TimestreamMaxBatchSize
                else totalRecords fmtValue queue % TimestreamMaxBatchSize)) := by
  have hacc := drain_accounting fmtValue queue
  have hpos := foldl_buffer_pos fmtValue queue
    { timestreamRecordsToSave := [], dispatched := [] }
  simp only [List.length_nil, Nat.zero_add] at hpos
  change (0 < (drain fmtValue queue).timestreamRecordsToSave.length
    ↔ 0 < totalRecords fmtValue queue) at hpos
  simp only [TimestreamMaxBatchSize] at hacc hfinal ⊢
  refine ⟨by omega, ?_, ?_, ?_⟩
  · intro c hc
    simpa [TimestreamMaxBatchSize] using drainChunks_length fmtValue queue c hc
  · intro hK
    have hd : (drainChunks fmtValue queue).length = 0 := by omega
    have hb : ¬ (drain fmtValue queue).timestreamRecordsToSave.length > 0 := by omega
    unfold metricSamplesHandler finalChunk
    simp only [hb, if_false, Option.toList_none, List.append_nil]
    exact List.eq_nil_of_length_eq_zero hd
  · intro hK
    have hb : (drain fmtValue queue).timestreamRecordsToSave.length > 0 := hpos.2 hK
    refine ⟨(drain fmtValue queue).timestreamRecordsToSave, ?_, ?_, ?_⟩
    · unfold finalChunk
      simp only [hb, if_true]
    · omega
    · split <;> omega

/-- Witness of C3 as amended: one batch of 150 samples gives two chunks, one of 100
records while draining and one of 50 at finalization. -/
theorem chunk_counts_witness :
    (drain exampleFmt [List.replicate 150 exampleSample]).timestreamRecordsToSave.length
        ≤ TimestreamMaxBatchSize
      ∧ (drainChunks exampleFmt [List.replicate 150 exampleSample]).length
        = (totalRecords exampleFmt [List.replicate 150 exampleSample] - 1)
          / TimestreamMaxBatchSize
      ∧ totalRecords exampleFmt [List.replicate 150 exampleSample] = 150
      ∧ (metricSamplesHandler exampleFmt [List.replicate 150 exampleSample]).map List.length
        = [100, 50] := by
  have hd := (drain_single exampleFmt (List.replicate 150 exampleSample)).2
  have hs := single_batch_sizes exampleFmt (List.replicate 150 exampleSample)
  have ht := totalRecords_single exampleFmt (List.replicate 150 exampleSample)
  have hl := List.length_replicate 150 exampleSample
  have main := chunk_counts exampleFmt [List.replicate 150 exampleSample]
  generalize List.replicate 150 exampleSample = batch at hd hs ht hl main ⊢
  rw [hl] at hd hs ht
  have hle : (drain exampleFmt [batch]).timestreamRecordsToSave.length
      ≤ TimestreamMaxBatchSize := by
    rw [hd]
    decide
  refine ⟨hle, (main hle).1, ht, ?_⟩
  unfold metricSamplesHandler
  rw [List.map_append, hs.1]
  have hfin : (finalChunk exampleFmt [batch]).map List.length = some 50 := hs.2
  cases hc : finalChunk exampleFmt [batch] with
  | none => simp [hc] at hfin
  | some c =>
    simp only [hc, Option.map_some', Option.some.injEq] at hfin
    simp [hfin, TimestreamMaxBatchSize]

/-! ## The dimensions of a record -/

theorem utf8ByteSize_mk_eq_zero (l : List Char) :
    (String.mk l).utf8ByteSize = 0 ↔ l = [] := by
  cases l with
  | nil => simp [String.utf8ByteSize, String.utf8ByteSize.go]
  | cons c l =>
    have := Char.utf8Size_pos c
    simp [String.utf8ByteSize, String.utf8ByteSize.go]
    omega

theorem all_of_dropWhile_all {α : Type} (p : α → Bool) (l : List α)
    (h : ∀ x ∈ l.dropWhile p, p x = true) : ∀ x ∈ l, p x = true := by
  induction l with
  | nil => simp
  | cons a t ih =>
    by_cases ha : p a = true
    · rw [List.dropWhile_cons_of_pos ha] at h
      intro x hx
      rcases List.mem_cons.1 hx with rfl | hx
      · exact ha
      · exact ih h x hx
    · rw [List.dropWhile_cons_of_neg ha] at h
      exact h

/-- The test of lines 159 and 170 holds exactly for the strings that are empty or
consist only of white space. -/
theorem blankValue_iff (v : String) : blankValue v = true ↔ whitespaceOnly v := by
  unfold blankValue TrimSpace whitespaceOnly
  rw [beq_iff_eq, utf8ByteSize_mk_eq_zero, List.reverse_eq_nil_iff,
    List.dropWhile_eq_nil_iff]
  constructor
  · intro h
    apply all_of_dropWhile_all
    intro x hx
    exact h x (List.mem_reverse.2 hx)
  · intro h x hx
    exact h x ((List.dropWhile_sublist isSpace).subset (List.mem_reverse.1 hx))

/-- The inner loop appends one dimension for every entry with a value that is not
blank, in iteration order. -/
theorem appendDimensions_eq (dimensions : List Dimension) (entries : List (String × String)) :
    appendDimensions dimensions entries
      = dimensions ++ (entries.filter fun kv => !blankValue kv.2).map
          fun kv => { Name := kv.1, Value := kv.2 } := by
  unfold appendDimensions
  induction entries generalizing dimensions with
  | nil => simp
  | cons kv entries ih =>
    rw [List.foldl_cons, ih]
    by_cases hb : blankValue kv.2 = true
    · simp [hb]
    · simp [hb]

/-- C5 fails for a key that is a tag with a blank value and also a metadata entry with a
value: the tag `k` of the sample has the value `" "`, and the record has the dimension
`k` with the value `v` of the metadata entry `k`. -/
theorem blank_tag_key_kept_by_metadata :
    ("k", " ") ∈ blankTagSample.Tags
      ∧ whitespaceOnly " "
      ∧ createRecords exampleFmt [blankTagSample]
        = [{ Dimensions := [{ Name := "k", Value := "v" }], MeasureName := "m",
             MeasureValue := "3.000000", MeasureValueType := "DOUBLE", Time := "0",
             TimeUnit := "NANOSECONDS" }]
      ∧ hasDimensionNamed (createRecord exampleFmt blankTagSample) "k" := by
  decide

/-- C5 as amended: the record `createRecords` produces for a sample is the record
`createRecord` gives for it, and it has a dimension named by a key exactly when the
sample has a tag of that key or a metadata entry of that key with a value that is
neither empty nor white space only.  So a key whose tag value or metadata value is
blank has no dimension unless its other entry has a non-blank value. -/
theorem dimension_iff_nonblank_entry {V : Type} (fmtValue : V → String)
    (samples : List (Sample V)) (sample : Sample V) (key : String) :
    createRecords fmtValue samples = samples.map (createRecord fmtValue)
      ∧ (hasDimensionNamed (createRecord fmtValue sample) key ↔
          (∃ v, (key, v) ∈ sample.Tags ∧ ¬ whitespaceOnly v)
            ∨ (∃ v, (key, v) ∈ sample.Metadata ∧ ¬ whitespaceOnly v)) := by
  refine ⟨createRecords_eq_map fmtValue samples, ?_⟩
  unfold hasDimensionNamed createRecord
  simp only [appendDimensions_eq, List.nil_append, List.mem_append, List.mem_map,
    List.mem_filter, Bool.not_eq_true', ← blankValue_iff, Bool.not_eq_true]
  constructor
  · rintro ⟨d, (⟨kv, ⟨hmem, hnb⟩, rfl⟩ | ⟨kv, ⟨hmem, hnb⟩, rfl⟩), hname⟩
    · simp only at hname
      subst hname
      exact Or.inl ⟨kv.2, hmem, hnb⟩
    · simp only at hname
      subst hname
      exact Or.inr ⟨kv.2, hmem, hnb⟩
  · rintro (⟨v, hmem, hnb⟩ | ⟨v, hmem, hnb⟩)
    · exact ⟨_, Or.inl ⟨(key, v), ⟨hmem, hnb⟩, rfl⟩, rfl⟩
    · exact ⟨_, Or.inr ⟨(key, v), ⟨hmem, hnb⟩, rfl⟩, rfl⟩

/-! ## A rejected write -/

/-- C7: when the store write of a chunk fails with an error in whose chain `errors.As`
finds a rejected-records error with the rejections `rejected.RejectedRecords`,
`writeRecords` returns the count 0 and an error that still wraps that rejection;
`logTimestreamError` logs one failure entry and then one entry per rejection, the i-th
with the reason text and the record index of the i-th rejection; the goroutine ends
after logging, and `Stop` returns the nil error. -/
theorem rejected_records_logged (client : WriteClient) (config : Config)
    (records : List Record) (err : GoError) (rejected : RejectedRecordsException)
    (hfail : client ⟨config.DatabaseName, config.TableName, records⟩ = .error err)
    (hrej : errorsAs err = some rejected) :
    ∃ wrapped : GoError,
      writeRecords client config records = some (0, some wrapped)
        ∧ errorsAs wrapped = some rejected
        ∧ logTimestreamError wrapped
          = LogEntry.error "failed to write" wrapped ::
              rejected.RejectedRecords.map (fun rr =>
                LogEntry.errorf "reject reason: %q, record index: %d"
                  (awsToString rr.Reason) rr.RecordIndex)
        ∧ (logTimestreamError wrapped).length = 1 + rejected.RejectedRecords.length
        ∧ (∀ (i : Nat) (rr : RejectedRecord), rejected.RejectedRecords[i]? = some rr →
            (logTimestreamError wrapped)[i + 1]?
              = some (LogEntry.errorf "reject reason: %q, record index: %d"
                  (awsToString rr.Reason) rr.RecordIndex))
        ∧ writeTask client config records
          = some (LogEntry.debug "starting write" :: logTimestreamError wrapped)
        ∧ Stop = none := by
  have hw : writeRecords client config records
      = some (0, some (GoError.wrapping "unable to write records to timestream: %w" err)) := by
    unfold writeRecords
    simp only [hfail]
  have has : errorsAs (GoError.wrapping "unable to write records to timestream: %w" err)
      = some rejected := by
    simp only [errorsAs, hrej]
  have hlog : logTimestreamError (GoError.wrapping "unable to write records to timestream: %w" err)
      = LogEntry.error "failed to write"
          (GoError.wrapping "unable to write records to timestream: %w" err) ::
          rejected.RejectedRecords.map fun rr =>
            LogEntry.errorf "reject reason: %q, record index: %d"
              (awsToString rr.Reason) rr.RecordIndex := by
    unfold logTimestreamError
    simp only [has, List.singleton_append]
  refine ⟨_, hw, has, hlog, ?_, ?_, ?_, rfl⟩
  · rw [hlog]
    simp [Nat.add_comm]
  · intro i rr hi
    rw [hlog]
    simp [hi]
  · unfold writeTask
    simp only [hw, List.singleton_append]

/-- Witness of C7 (scenario C): a chunk of 10 records whose write is rejected at the
indices 2 and 5 gives a failure entry followed by two rejection entries. -/
theorem rejected_records_logged_witness :
    rejectingClient ⟨exampleConfig.DatabaseName, exampleConfig.TableName,
        createRecords exampleFmt (List.replicate 10 exampleSample)⟩
      = .error (GoError.wrapping "operation error Timestream Write: WriteRecords"
          (GoError.rejected exampleRejection))
    ∧ errorsAs (GoError.wrapping "operation error Timestream Write: WriteRecords"
        (GoError.rejected exampleRejection)) = some exampleRejection
    ∧ ∃ wrapped : GoError,
      writeRecords rejectingClient exampleConfig
          (createRecords exampleFmt (List.replicate 10 exampleSample))
        = some (0, some wrapped)
      ∧ logTimestreamError wrapped
        = [LogEntry.error "failed to write" wrapped,
           LogEntry.errorf "reject reason: %q, record index: %d"
             "The record timestamp is outside the time range of the memory store." 2,
           LogEntry.errorf "reject reason: %q, record index: %d"
             "A record already exists with the same time and dimensions." 5]
      ∧ Stop = none := by
  refine ⟨rfl, rfl, ?_⟩
  obtain ⟨wrapped, hw, _, hlog, _, _, _, hstop⟩ :=
    rejected_records_logged rejectingClient exampleConfig
      (createRecords exampleFmt (List.replicate 10 exampleSample))
      (GoError.wrapping "operation error Timestream Write: WriteRecords"
        (GoError.rejected exampleRejection))
      exampleRejection rfl rfl
  exact ⟨wrapped, hw, hlog, hstop⟩

/-! ## The measure value -/

theorem digitChar_isDigit (d : Nat) (h : d < 10) : (Nat.digitChar d).isDigit = true := by
  interval_cases d <;> decide

theorem toDigitsCore_digits (fuel n : Nat) (ds : List Char)
    (hds : ∀ c ∈ ds, c.isDigit = true) :
    ∀ c ∈ Nat.toDigitsCore 10 fuel n ds, c.isDigit = true := by
  induction fuel generalizing n ds with
  | zero => simpa [Nat.toDigitsCore] using hds
  | succ fuel ih =>
    have hd : (Nat.digitChar (n % 10)).isDigit = true :=
      digitChar_isDigit _ (Nat.mod_lt _ (by decide))
    have hcons : ∀ c ∈ Nat.digitChar (n % 10) :: ds, c.isDigit = true := by
      intro c hc
      rcases List.mem_cons.1 hc with rfl | hc
      · exact hd
      · exact hds c hc
    unfold Nat.toDigitsCore
    simp only
    split
    · exact hcons
    · exact ih _ _ hcons

theorem toDigitsCore_ne_nil (fuel n : Nat) (ds : List Char) (h : ds ≠ [] ∨ 0 < fuel) :
    Nat.toDigitsCore 10 fuel n ds ≠ [] := by
  induction fuel generalizing n ds with
  | zero =>
    rcases h with h | h
    · simpa [Nat.toDigitsCore] using h
    · omega
  | succ fuel ih =>
    unfold Nat.toDigitsCore
    simp only
    split
    · simp
    · exact ih _ _ (Or.inl (by simp))

/-- A finite value is rendered with exactly six digits after the point. -/
theorem formatFixed6_sixDecimals (negative : Bool) (micros : Nat) :
    sixDecimals (formatFixed6 negative micros) := by
  refine ⟨if negative then ['-'] else [], Nat.toDigits 10 (micros / 10 ^ 6),
    (List.range 6).map fun i => Nat.digitChar (micros / 10 ^ (5 - i) % 10),
    rfl, ?_, ?_, ?_, ?_, ?_⟩
  · cases negative <;> simp
  · exact toDigitsCore_ne_nil _ _ _ (Or.inr (Nat.succ_pos _))
  · exact toDigitsCore_digits _ _ _ (by simp)
  · simp
  · intro c hc
    obtain ⟨i, -, rfl⟩ := List.mem_map.1 hc
    exact digitChar_isDigit _ (Nat.mod_lt _ (by decide))

/-- C6 fails at the value positive infinity: the record of the sample has the measure
value `+Inf`, which has no decimal point and no digit. -/
theorem infinite_value_not_decimal :
    (createRecords sprintfF6 [infSample]).map Record.MeasureValue = ["+Inf"]
      ∧ ¬ sixDecimals (createRecord sprintfF6 infSample).MeasureValue := by
  refine ⟨by decide, ?_⟩
  rintro ⟨sign, digits, fraction, h, -⟩
  have hmem : '.' ∈ (createRecord sprintfF6 infSample).MeasureValue.data := by
    rw [h]
    simp
  revert hmem
  decide

/-- C6 as amended: for every sample whose value is finite, the measure value of the
record `createRecords` produces for it is the rendering of the value by `%.6f` and is a
decimal rendering with exactly six digits after the decimal point. -/
theorem measure_value_six_decimals (samples : List (Sample Float64))
    (sample : Sample Float64) (hfin : sample.Value.isFinite = true) :
    createRecords sprintfF6 samples = samples.map (createRecord sprintfF6)
      ∧ (createRecord sprintfF6 sample).MeasureValue = sprintfF6 sample.Value
      ∧ sixDecimals (createRecord sprintfF6 sample).MeasureValue := by
  refine ⟨createRecords_eq_map sprintfF6 samples, rfl, ?_⟩
  change sixDecimals (sprintfF6 sample.Value)
  cases hv : sample.Value with
  | finite negative mantissa exponent => exact formatFixed6_sixDecimals _ _
  | inf negative => simp [hv, Float64.isFinite] at hfin
  | nan => simp [hv, Float64.isFinite] at hfin

/-- Witness of C6 as amended: the value 3 renders as `3.000000`. -/
theorem measure_value_six_decimals_witness :
    threeSample.Value.isFinite = true
      ∧ (createRecords sprintfF6 [threeSample]).map Record.MeasureValue = ["3.000000"]
      ∧ sixDecimals (createRecord sprintfF6 threeSample).MeasureValue :=
  ⟨by decide, by decide,
    (measure_value_six_decimals [threeSample] threeSample (by decide)).2.2⟩

end Timestream
